import Mathlib

/-!
Shallow embedding of `src/dp_learning_ff/mean_estimation/coinpress.py`
(repository `lsc64/dp-learning-from-features`).

Conventions of the embedding:
* numpy float entries are modelled as exact rationals (`ℚ`);
* a numpy array is a `NpArray`: an explicit `shape` (so rank checks such as
  `len(X.shape) != 2` and empty 2-D arrays of shape `(0, d)` are faithfully
  representable) together with its data in row form, meaningful when the
  rank is 2;
* Python exceptions become an `Err` result in `Except`; the abstract error
  kinds of the specification name the concrete raises of the source
  (`InvalidShape` = the `ValueError` of `private_mean`, `NotSupported` = the
  `NotImplementedError` of `give_private_prototypes`, `NotCalibrated` = the
  `ValueError("Mechanism not calibrated")` of `prototypes`, `InvalidParameter`
  = the `AssertionError` of the property setters, `PyTypeError` = the
  `TypeError` Python raises when `None` is compared with a float);
* randomness is an explicit oracle: `RandStream` packages the Poisson draws
  and the shuffles of `np.random.default_rng(seed)`, threaded by an explicit
  position, and the Gaussian noise of the estimator is an oracle
  `round → coordinate → ℚ`;
* clipping radii are tracked by their squares, which are exactly
  representable in `ℚ`: the source default `r = np.sqrt(d) * 3` is the
  radius whose square is `9 * d`.
-/

/-- Error kinds raised by the source, named as in the specification (§7). -/
inductive Err where
  | InvalidShape
  | EmptyInput
  | NotSupported
  | NotCalibrated
  | InvalidParameter
  | PyTypeError
deriving DecidableEq, Repr

/-- A numpy array: its shape, and its data as a list of rows (the data is
meaningful when the rank is 2; rank checks use `shape` alone, exactly as the
source only consults `X.shape`). -/
structure NpArray where
  shape : List Nat
  rows : List (List ℚ)
deriving DecidableEq, Repr

/-- Squared euclidean distance between two coordinate lists. -/
def distSq (x c : List ℚ) : ℚ :=
  (List.zipWith (fun a b => (a - b) ^ 2) x c).sum

/-- Modelled from the spec: the clip step of §4.4 projects a point onto the
ball of (squared) radius `rsq` around `c`; points inside pass through
unchanged.  The exact treatment of outliers lives in
`dp_learning_ff.ext.coinpress.algos`, which is not under `src/`, and the
spec leaves its constants open (§9); outliers are mapped to the centre here,
exact projection onto the boundary being irrational over `ℚ`. -/
def clipPoint (c : List ℚ) (rsq : ℚ) (x : List ℚ) : List ℚ :=
  if distSq x c ≤ rsq then x else c

/-- Coordinatewise mean of a list of points, in dimension `d` (coordinates
a row lacks count as `0`; numpy rows of a 2-D array all have length `d`). -/
def colMean (d : Nat) (X : List (List ℚ)) : List ℚ :=
  (List.range d).map (fun j => (X.map (fun row => row.getD j 0)).sum / (X.length : ℚ))

/-- Modelled from the spec: one round of the §4.4 loop —
clip → aggregate → privatize (noise oracle) → recenter and shrink.  The
shrink constant is left open by the spec (§9); the model quarters the
squared radius. -/
def meanStep (X : List (List ℚ)) (c : List ℚ) (rsq : ℚ) (eta : Nat → ℚ) :
    List ℚ × ℚ :=
  let d := c.length
  let clipped := X.map (clipPoint c rsq)
  (List.zipWith (· + ·) (colMean d clipped) ((List.range d).map eta), rsq / 4)

/-- The `t` rounds of the estimation loop, as a fold over the round index. -/
def meanRounds (X : List (List ℚ)) (noise : Nat → Nat → ℚ) (t : Nat)
    (c : List ℚ) (rsq : ℚ) : List ℚ × ℚ :=
  (List.range t).foldl (fun st i => meanStep X st.1 st.2 (noise i)) (c, rsq)

/-- Modelled from the spec: `algos.multivariate_mean_iterative` (imported by
the source from `dp_learning_ff.ext.coinpress`, not under `src/`).  Per §4.4
it runs `t` rounds of clip → aggregate → noise → recenter starting from
centre `c` and (squared) radius `rsq`, returning the final centre, and fails
with `EmptyInput` when the point set is empty (`N == 0`).  The per-round
Gaussian draws are the oracle `noise`; `Ps` drives only the noise scale,
which the oracle absorbs. -/
def multivariateMeanIterative (X : List (List ℚ)) (c : List ℚ) (rsq : ℚ)
    (t : Nat) (Ps : List ℚ) (noise : Nat → Nat → ℚ) : Except Err (List ℚ) :=
  if X.isEmpty then .error .EmptyInput
  else .ok (meanRounds X noise t c rsq).1

/-- Embeds `private_mean(X, Ps, r=None, c=None)` (source lines 245–255):
raise `InvalidShape` unless `X` is 2-D, default the radius to
`np.sqrt(d) * 3` (squared: `9 * d`) and the centre to `np.zeros(d)` where
`d = X.shape[1]`, then run the iterative estimator for `t = len(Ps)`
rounds.  `rsq` is the squared clipping radius. -/
def private_mean (X : NpArray) (Ps : List ℚ) (rsq : Option ℚ)
    (c : Option (List ℚ)) (noise : Nat → Nat → ℚ) : Except Err (List ℚ) :=
  if X.shape.length ≠ 2 then .error .InvalidShape
  else
    let d := X.shape.getD 1 0
    let rsq' := rsq.getD (9 * (d : ℚ))
    let c' := c.getD (List.replicate d 0)
    multivariateMeanIterative X.rows c' rsq' Ps.length Ps noise

/-- Embeds `np.unique(train_targets)` (source line 223): the distinct label
values in ascending order. -/
def npUnique (l : List ℤ) : List ℤ :=
  List.insertionSort (· ≤ ·) l.dedup

/-- Embeds the boolean-mask partition `train_preds[train_targets == target]`
(source line 225): the rows of the training array whose aligned label equals
`t`. -/
def classRows (rows : List (List ℚ)) (targets : List ℤ) (t : ℤ) :
    List (List ℚ) :=
  (rows.zip targets).filterMap (fun p => if p.2 = t then some p.1 else none)

/-- The randomness of `np.random.default_rng(seed)`, as an oracle: `poisson`
is the stream of Poisson occurrence counts (the `i`-th scalar drawn), and
`shuffle` gives the permuted list produced by `rng.shuffle` at a given point
of the stream. -/
structure RandStream where
  poisson : Nat → Nat
  shuffle : Nat → List (List ℚ) → List (List ℚ)

/-- Embeds `np.arange(m).repeat(occurences)` followed by `M_x[...]` (source
lines 232–234): row `i` of `xs` appears `occ (p + i)` times, in index order,
where `p` is the current position in the Poisson stream. -/
def poissonRepeat (occ : Nat → Nat) (p : Nat) (xs : List (List ℚ)) :
    List (List ℚ) :=
  (List.zipWith (fun i x => List.replicate (occ (p + i)) x)
    (List.range xs.length) xs).flatten

/-- Embeds the subsampling loop of `give_private_prototypes` (source lines
229–238), threading the position of the shared `rng` across the per-class
iterations: Poisson mode draws one count per point, fixed-ratio mode
shuffles and truncates to `int(subsampling * m)` rows. -/
def subsampleGo (rs : RandStream) (poisson : Bool) (ratio : ℚ) :
    Nat → List (List (List ℚ)) → List (List (List ℚ))
  | _, [] => []
  | p, xs :: rest =>
    if poisson then
      poissonRepeat rs.poisson p xs ::
        subsampleGo rs poisson ratio (p + xs.length) rest
    else
      (rs.shuffle p xs).take (ratio * (xs.length : ℚ)).floor.toNat ::
        subsampleGo rs poisson ratio (p + 1) rest

/-- The per-class point sets `train_preds_sorted` as they stand after the
optional subsampling step (source lines 223–238): the label-partitioned rows,
subsampled only when the ratio is strictly below 1. -/
def surviving (preds : NpArray) (targets : List ℤ) (ratio : ℚ)
    (poisson : Bool) (rs : RandStream) : List (List (List ℚ)) :=
  let parts := (npUnique targets).map (classRows preds.rows targets)
  if ratio < 1 then subsampleGo rs poisson ratio 0 parts else parts

/-- Sequential fallible map: the Python list comprehension
`[private_mean(...) for i, target in enumerate(targets)]`, which raises at
the first failing class. -/
def mapExcept (f : α → Except Err β) : List α → Except Err (List β)
  | [] => .ok []
  | a :: l =>
    match f a with
    | .error e => .error e
    | .ok b =>
      match mapExcept f l with
      | .error e => .error e
      | .ok bs => .ok (b :: bs)

/-- Embeds the assembly step `np.asarray([private_mean(...) ...])` (source
lines 239–241): class `i`'s point set becomes a 2-D array whose second shape
axis is inherited from the training array, and the per-class estimates are
collected in class order.  `tl` is `train_preds.shape` minus its first
axis. -/
def assemble (tl : List Nat) (Ps : List ℚ) (noise : Nat → Nat → Nat → ℚ)
    (parts : List (List (List ℚ))) : Except Err (List (List ℚ)) :=
  mapExcept
    (fun i => private_mean ⟨(parts.getD i []).length :: tl, parts.getD i []⟩
      Ps none none (noise i))
    (List.range parts.length)

/-- Embeds Python's comparison `subsampling < 1.0` (source line 227), where
`subsampling` may be `None` when it reaches this call through the
configuration object: comparing `None` with a float raises `TypeError`. -/
def ltOne : Option ℚ → Except Err Bool
  | none => .error .PyTypeError
  | some s => .ok (decide (s < 1))

/-- Embeds `give_private_prototypes` (source lines 198–242): reject
`sample_each_step`, partition by the sorted unique labels, subsample each
class when the ratio is below 1 (Poisson or shuffle-and-truncate), and run
`private_mean` on every class with the shared budget sequence.  `randOf`
maps a seed to the oracle for `np.random.default_rng(seed)`; `noise i` is
the estimator's noise oracle for class `i`. -/
def give_private_prototypes (train_preds : NpArray) (train_targets : List ℤ)
    (Ps : List ℚ) (seed : Nat) (subsampling : Option ℚ)
    (sample_each_step : Bool) (poisson_sampling : Bool)
    (randOf : Nat → RandStream) (noise : Nat → Nat → Nat → ℚ) :
    Except Err (List (List ℚ)) :=
  if sample_each_step then .error .NotSupported
  else
    match ltOne subsampling with
    | .error e => .error e
    | .ok _ =>
      assemble train_preds.shape.tail Ps noise
        (surviving train_preds train_targets (subsampling.getD 1)
          poisson_sampling (randOf seed))

/-- The calibrated mechanism object, reduced to what the source reads from
it in `prototypes`: its per-step budgets `params["Ps"]`. -/
structure Mechanism where
  Ps : List ℚ
deriving DecidableEq, Repr

/-- Embeds the `CoinpressPrototyping` dataclass fields (source lines 16–29).
Fields the setters may legally hold `None` in are `Option`s; `_p_sampling`
is an `Option` because its setter accepts `None`. -/
structure CoinpressPrototyping where
  eps : Option ℚ := none
  delta : Option ℚ := none
  steps : Option ℤ := none
  dist : Option String := none
  Ps : Option (List ℚ) := none
  p_sampling : Option ℚ := some 1
  sample_each_step : Bool := false
  seed : Nat := 42
  order : Option ℚ := some 1
  calibrated : Bool := false
  verbose : Bool := false
  mechanism : Option Mechanism := none
deriving DecidableEq, Repr

/-- Embeds the `epsilon` property setter (source lines 68–74): assert
`value > 0` unless `value is None`, then store.  The pair returns the
assertion outcome together with the object state after the call, so a
failed assertion visibly leaves the stored field untouched. -/
def setEpsilon (cfg : CoinpressPrototyping) (v : Option ℚ) :
    Except Err Unit × CoinpressPrototyping :=
  match v with
  | none => (.ok (), { cfg with eps := none })
  | some x =>
    if 0 < x then (.ok (), { cfg with eps := some x })
    else (.error .InvalidParameter, cfg)

/-- Embeds the `delta` property setter (source lines 80–83). -/
def setDelta (cfg : CoinpressPrototyping) (v : Option ℚ) :
    Except Err Unit × CoinpressPrototyping :=
  match v with
  | none => (.ok (), { cfg with delta := none })
  | some x =>
    if 0 < x then (.ok (), { cfg with delta := some x })
    else (.error .InvalidParameter, cfg)

/-- Embeds the `steps` property setter (source lines 112–115). -/
def setSteps (cfg : CoinpressPrototyping) (v : Option ℤ) :
    Except Err Unit × CoinpressPrototyping :=
  match v with
  | none => (.ok (), { cfg with steps := none })
  | some x =>
    if 0 < x then (.ok (), { cfg with steps := some x })
    else (.error .InvalidParameter, cfg)

/-- Embeds the `p_sampling` property setter (source lines 121–126): assert
`0 < value ≤ 1` unless `value is None`, then store. -/
def setPSampling (cfg : CoinpressPrototyping) (v : Option ℚ) :
    Except Err Unit × CoinpressPrototyping :=
  match v with
  | none => (.ok (), { cfg with p_sampling := none })
  | some x =>
    if 0 < x ∧ x ≤ 1 then (.ok (), { cfg with p_sampling := some x })
    else (.error .InvalidParameter, cfg)

/-- Embeds `CoinpressPrototyping.prototypes` (source lines 37–51): fail with
`NotCalibrated` when no mechanism is set, pick the seed, and call
`give_private_prototypes` with the mechanism's budgets, the configured
sampling ratio and resampling flag, and `poisson_sampling=True`. -/
def CoinpressPrototyping.prototypes (cfg : CoinpressPrototyping)
    (train_preds : NpArray) (train_targets : List ℤ)
    (overwrite_seed : Option Nat) (randOf : Nat → RandStream)
    (noise : Nat → Nat → Nat → ℚ) : Except Err (List (List ℚ)) :=
  match cfg.mechanism with
  | none => .error .NotCalibrated
  | some m =>
    let seed := match overwrite_seed with
      | none => cfg.seed
      | some s => s
    give_private_prototypes train_preds train_targets m.Ps seed
      cfg.p_sampling cfg.sample_each_step true randOf noise

/-- The calibration path `try_calibrate` selects; the bodies of
`calibrate_Ps` and `calibrate_steps` call helpers that live outside `src/`
and are not needed by the claims, so only the dispatch is embedded. -/
inductive CalibrationPath where
  | noOp
  | viaPs
  | viaSteps
deriving DecidableEq, Repr

/-- Embeds the dispatch of `try_calibrate` (source lines 128–139): return
silently when `_epsilon` or `_delta` is `None`; otherwise take the
explicit-budgets path when `Ps` is set (the comment "overwrites attrs2"),
and the steps path only when `_dist`, `_order` and `_steps` are all set. -/
def tryCalibrate (cfg : CoinpressPrototyping) : CalibrationPath :=
  if cfg.eps = none then .noOp
  else if cfg.delta = none then .noOp
  else if cfg.Ps ≠ none then .viaPs
  else if cfg.dist = none then .noOp
  else if cfg.order = none then .noOp
  else if cfg.steps = none then .noOp
  else .viaSteps

/-! Helper lemmas about the embedded operations. -/

theorem meanStep_fst_length (X : List (List ℚ)) (c : List ℚ) (rsq : ℚ)
    (eta : Nat → ℚ) : (meanStep X c rsq eta).1.length = c.length := by
  simp [meanStep, colMean]

theorem foldl_meanStep_length (X : List (List ℚ)) (noise : Nat → Nat → ℚ) :
    ∀ (l : List Nat) (c : List ℚ) (rsq : ℚ),
      ((l.foldl (fun st i => meanStep X st.1 st.2 (noise i)) (c, rsq)).1).length
        = c.length := by
  intro l
  induction l with
  | nil => intro c rsq; rfl
  | cons a l ih =>
    intro c rsq
    rw [List.foldl_cons, ih]
    exact meanStep_fst_length X c rsq (noise a)

theorem meanRounds_fst_length (X : List (List ℚ)) (noise : Nat → Nat → ℚ)
    (t : Nat) (c : List ℚ) (rsq : ℚ) :
    (meanRounds X noise t c rsq).1.length = c.length :=
  foldl_meanStep_length X noise (List.range t) c rsq

theorem mmi_of_empty (c : List ℚ) (rsq : ℚ) (t : Nat) (Ps : List ℚ)
    (noise : Nat → Nat → ℚ) :
    multivariateMeanIterative [] c rsq t Ps noise = .error .EmptyInput := rfl

theorem mmi_of_ne_nil {X : List (List ℚ)} (hX : X ≠ []) (c : List ℚ) (rsq : ℚ)
    (t : Nat) (Ps : List ℚ) (noise : Nat → Nat → ℚ) :
    multivariateMeanIterative X c rsq t Ps noise
      = .ok (meanRounds X noise t c rsq).1 := by
  simp [multivariateMeanIterative, hX]

theorem mmi_ok_length {X : List (List ℚ)} {c v : List ℚ} {rsq : ℚ} {t : Nat}
    {Ps : List ℚ} {noise : Nat → Nat → ℚ}
    (h : multivariateMeanIterative X c rsq t Ps noise = .ok v) :
    v.length = c.length := by
  by_cases hX : X = []
  · subst hX; exact absurd h (by simp [multivariateMeanIterative])
  · rw [mmi_of_ne_nil hX] at h
    cases h
    exact meanRounds_fst_length X noise t c rsq

theorem mapExcept_ok_length {f : α → Except Err β} :
    ∀ {l : List α} {bs : List β}, mapExcept f l = .ok bs → bs.length = l.length := by
  intro l
  induction l with
  | nil => intro bs h; cases h; rfl
  | cons a l ih =>
    intro bs h
    unfold mapExcept at h
    cases hfa : f a with
    | error e => rw [hfa] at h; cases h
    | ok b =>
      rw [hfa] at h
      cases hrec : mapExcept f l with
      | error e => rw [hrec] at h; cases h
      | ok bs0 =>
        rw [hrec] at h
        cases h
        simp [ih hrec]

theorem mapExcept_ok_getD {f : α → Except Err β} (a0 : α) (b0 : β) :
    ∀ {l : List α} {bs : List β}, mapExcept f l = .ok bs →
      ∀ i, i < l.length → f (l.getD i a0) = .ok (bs.getD i b0) := by
  intro l
  induction l with
  | nil => intro bs _ i hi; exact absurd hi (by simp)
  | cons a l ih =>
    intro bs h i hi
    unfold mapExcept at h
    cases hfa : f a with
    | error e => rw [hfa] at h; cases h
    | ok b =>
      rw [hfa] at h
      cases hrec : mapExcept f l with
      | error e => rw [hrec] at h; cases h
      | ok bs0 =>
        rw [hrec] at h
        cases h
        cases i with
        | zero => simpa using hfa
        | succ i =>
          have := ih hrec i (by simpa using hi)
          simpa using this

theorem mapExcept_error_of_mem {f : α → Except Err β} {e0 : Err} :
    ∀ {l : List α}, (∀ a ∈ l, f a = .error e0 ∨ ∃ b, f a = .ok b) →
      (∃ a ∈ l, f a = .error e0) → mapExcept f l = .error e0 := by
  intro l
  induction l with
  | nil => intro _ hex; simp at hex
  | cons a l ih =>
    intro hall hex
    unfold mapExcept
    cases hfa : f a with
    | error e =>
      have : e = e0 := by
        rcases hall a (List.mem_cons_self a l) with h | ⟨b, hb⟩
        · rw [hfa] at h; cases h; rfl
        · rw [hfa] at hb; cases hb
      rw [this]
    | ok b =>
      have hex' : ∃ x ∈ l, f x = .error e0 := by
        rcases hex with ⟨x, hx, hfx⟩
        rcases List.mem_cons.1 hx with rfl | hx'
        · rw [hfa] at hfx; cases hfx
        · exact ⟨x, hx', hfx⟩
      rw [ih (fun x hx => hall x (List.mem_cons_of_mem a hx)) hex']

theorem npUnique_sorted (l : List ℤ) : (npUnique l).Sorted (· < ·) := by
  have hs : (npUnique l).Sorted (· ≤ ·) :=
    List.sorted_insertionSort (· ≤ ·) l.dedup
  have hn : (npUnique l).Nodup :=
    ((List.perm_insertionSort (· ≤ ·) l.dedup).nodup_iff).2 l.nodup_dedup
  exact (hn.and hs).imp (fun h => lt_of_le_of_ne h.2 h.1)

theorem npUnique_mem (l : List ℤ) (a : ℤ) : a ∈ npUnique l ↔ a ∈ l :=
  ((List.perm_insertionSort (· ≤ ·) l.dedup).mem_iff).trans (List.mem_dedup)

theorem subsampleGo_length (rs : RandStream) (poisson : Bool) (ratio : ℚ) :
    ∀ (p : Nat) (parts : List (List (List ℚ))),
      (subsampleGo rs poisson ratio p parts).length = parts.length := by
  intro p parts
  induction parts generalizing p with
  | nil => rfl
  | cons xs rest ih =>
    cases poisson <;> simp [subsampleGo, ih]

theorem surviving_length (preds : NpArray) (targets : List ℤ) (ratio : ℚ)
    (poisson : Bool) (rs : RandStream) :
    (surviving preds targets ratio poisson rs).length
      = (npUnique targets).length := by
  unfold surviving
  by_cases h : ratio < 1 <;> simp [h, subsampleGo_length]

theorem subsampleGo_poisson_congr {rs1 rs2 : RandStream}
    (h : rs1.poisson = rs2.poisson) (ratio : ℚ) :
    ∀ (p : Nat) (parts : List (List (List ℚ))),
      subsampleGo rs1 true ratio p parts = subsampleGo rs2 true ratio p parts := by
  intro p parts
  induction parts generalizing p with
  | nil => rfl
  | cons xs rest ih =>
    simp [subsampleGo, poissonRepeat, h, ih]

theorem range_getD {n j : Nat} (h : j < n) : (List.range n).getD j 0 = j := by
  rw [List.getD_eq_getElem?_getD, List.getElem?_range h]
  rfl

theorem private_mean_2d {X : NpArray} {n d : Nat} (h : X.shape = [n, d])
    (Ps : List ℚ) (rsq : Option ℚ) (c : Option (List ℚ)) (noise : Nat → Nat → ℚ) :
    private_mean X Ps rsq c noise
      = multivariateMeanIterative X.rows (c.getD (List.replicate d 0))
          (rsq.getD (9 * (d : ℚ))) Ps.length Ps noise := by
  simp [private_mean, h]

/-! Claim theorems. -/

/-- C3: invoking prototype generation with `sample_each_step` set makes
`give_private_prototypes` fail with `NotSupported`, whatever every other
argument and random stream is — so before any partitioning, subsampling or
estimation can depend on them, and never silently as single-sample mode. -/
theorem C3_sample_each_step_not_supported (train_preds : NpArray)
    (train_targets : List ℤ) (Ps : List ℚ) (seed : Nat) (subsampling : Option ℚ)
    (poisson_sampling : Bool) (randOf : Nat → RandStream)
    (noise : Nat → Nat → Nat → ℚ) :
    give_private_prototypes train_preds train_targets Ps seed subsampling true
      poisson_sampling randOf noise = .error .NotSupported := by
  simp [give_private_prototypes]

/-- C7: calling `CoinpressPrototyping.prototypes` on a configuration whose
mechanism has not been calibrated (`mechanism is None`) fails with
`NotCalibrated` (the source's `ValueError("Mechanism not calibrated")`). -/
theorem C7_uncalibrated_prototypes_fails (cfg : CoinpressPrototyping)
    (train_preds : NpArray) (train_targets : List ℤ)
    (overwrite_seed : Option Nat) (randOf : Nat → RandStream)
    (noise : Nat → Nat → Nat → ℚ) (h : cfg.mechanism = none) :
    cfg.prototypes train_preds train_targets overwrite_seed randOf noise
      = .error .NotCalibrated := by
  simp [CoinpressPrototyping.prototypes, h]

theorem C7_witness :
    (({} : CoinpressPrototyping).mechanism = none) ∧
    ({} : CoinpressPrototyping).prototypes ⟨[0, 1], []⟩ [] none
      (fun _ => ⟨fun _ => 0, fun _ xs => xs⟩) (fun _ _ _ => 0)
      = .error .NotCalibrated :=
  ⟨rfl, C7_uncalibrated_prototypes_fails {} ⟨[0, 1], []⟩ [] none
    (fun _ => ⟨fun _ => 0, fun _ xs => xs⟩) (fun _ _ _ => 0) rfl⟩

/-- C6: assigning an invalid value to `epsilon`, `delta`, `steps` or
`p_sampling` (non-positive, respectively outside `(0, 1]` for `p_sampling`)
fails at assignment time with `InvalidParameter` and leaves the stored field
— indeed the whole configuration object — unchanged. -/
theorem C6_invalid_assignment_rejected (cfg : CoinpressPrototyping)
    (ve vd vp : ℚ) (vs : ℤ) (he : ve ≤ 0) (hd : vd ≤ 0) (hs : vs ≤ 0)
    (hp : ¬(0 < vp ∧ vp ≤ 1)) :
    setEpsilon cfg (some ve) = (.error .InvalidParameter, cfg) ∧
    setDelta cfg (some vd) = (.error .InvalidParameter, cfg) ∧
    setSteps cfg (some vs) = (.error .InvalidParameter, cfg) ∧
    setPSampling cfg (some vp) = (.error .InvalidParameter, cfg) := by
  refine ⟨?_, ?_, ?_, ?_⟩
  · simp [setEpsilon, not_lt.2 he]
  · simp [setDelta, not_lt.2 hd]
  · simp [setSteps, not_lt.2 hs]
  · simp [setPSampling, hp]

theorem C6_witness :
    setEpsilon {} (some 0) = (.error .InvalidParameter, ({} : CoinpressPrototyping)) ∧
    setDelta {} (some 0) = (.error .InvalidParameter, ({} : CoinpressPrototyping)) ∧
    setSteps {} (some 0) = (.error .InvalidParameter, ({} : CoinpressPrototyping)) ∧
    setPSampling {} (some 2) = (.error .InvalidParameter, ({} : CoinpressPrototyping)) :=
  C6_invalid_assignment_rejected {} 0 0 2 0 (le_refl 0) (le_refl 0) (le_refl 0)
    (by decide)

/-- C10: `try_calibrate` is a silent no-op whenever `epsilon` or `delta` is
unset; with both set it takes the explicit-budgets path whenever `Ps` is
set, regardless of `dist`, `order` and `steps`; and the steps path is taken
exactly when `epsilon` and `delta` are set, `Ps` is unset, and `dist`,
`order` and `steps` are all set. -/
theorem C10_try_calibrate_dispatch (cfg : CoinpressPrototyping) :
    ((cfg.eps = none ∨ cfg.delta = none) → tryCalibrate cfg = .noOp) ∧
    (cfg.eps ≠ none → cfg.delta ≠ none → cfg.Ps ≠ none →
      tryCalibrate cfg = .viaPs) ∧
    (tryCalibrate cfg = .viaSteps ↔
      cfg.eps ≠ none ∧ cfg.delta ≠ none ∧ cfg.Ps = none ∧
        cfg.dist ≠ none ∧ cfg.order ≠ none ∧ cfg.steps ≠ none) := by
  unfold tryCalibrate
  refine ⟨?_, ?_, ?_⟩
  · rintro (h | h) <;> simp [h]
  · intro he hd hp
    simp [he, hd, hp]
  · constructor
    · intro h
      by_cases he : cfg.eps = none
      · simp [he] at h
      by_cases hd : cfg.delta = none
      · simp [he, hd] at h
      by_cases hp : cfg.Ps = none
      · by_cases h1 : cfg.dist = none
        · simp [he, hd, hp, h1] at h
        by_cases h2 : cfg.order = none
        · simp [he, hd, hp, h1, h2] at h
        by_cases h3 : cfg.steps = none
        · simp [he, hd, hp, h1, h2, h3] at h
        exact ⟨he, hd, hp, h1, h2, h3⟩
      · simp [he, hd, hp] at h
    · rintro ⟨he, hd, hp, h1, h2, h3⟩
      simp [he, hd, hp, h1, h2, h3]

theorem C10_witness :
    tryCalibrate {} = .noOp ∧
    tryCalibrate
        { eps := some 1, delta := some 1, Ps := some [1],
          dist := some "lin", steps := some 5 } = .viaPs ∧
    tryCalibrate
        { eps := some 1, delta := some 1, dist := some "lin",
          steps := some 5 } = .viaSteps :=
  ⟨(C10_try_calibrate_dispatch {}).1 (Or.inl rfl),
   (C10_try_calibrate_dispatch _).2.1 (by simp) (by simp) (by simp),
   (C10_try_calibrate_dispatch _).2.2.mpr
     (by refine ⟨by simp, by simp, rfl, by simp, by simp, by simp⟩)⟩

/-- C2 (counterexample to the claim as stated): a two-dimensional but empty
input — shape `(0, 3)`, the shape a class partition has when subsampling
removed every point — does not fail with `InvalidShape`: the rank check
`len(X.shape) != 2` passes, and the failure is `EmptyInput` from the
estimation loop instead. -/
theorem C2_counterexample :
    private_mean ⟨[0, 3], []⟩ [1] none none (fun _ _ => 0) = .error .EmptyInput ∧
    private_mean ⟨[0, 3], []⟩ [1] none none (fun _ _ => 0) ≠ .error .InvalidShape := by
  constructor
  · rfl
  · intro h
    cases h

/-- C2 (amended): `private_mean` fails with `InvalidShape` exactly when its
input does not have two axes; an empty input with a two-dimensional shape
`(0, d)` passes the shape check (and fails later, with `EmptyInput`, inside
the estimation loop). -/
theorem C2_invalid_shape_iff (X : NpArray) (Ps : List ℚ) (rsq : Option ℚ)
    (c : Option (List ℚ)) (noise : Nat → Nat → ℚ) :
    private_mean X Ps rsq c noise = .error .InvalidShape ↔
      X.shape.length ≠ 2 := by
  by_cases h : X.shape.length = 2
  · simp only [private_mean, h, if_neg (by simp [h] : ¬X.shape.length ≠ 2)]
    constructor
    · intro hcontra
      by_cases hX : X.rows = []
      · rw [hX, mmi_of_empty] at hcontra
        cases hcontra
      · rw [mmi_of_ne_nil hX] at hcontra
        cases hcontra
    · intro hcontra
      exact absurd rfl hcontra
  · simp [private_mean, h]

/-- C8: for a two-dimensional input with `d` columns, omitting the initial
radius is the same as passing the source default `np.sqrt(d) * 3` (whose
square is `9 * d`; radii are represented by their squares in this
embedding), omitting the initial centre is the same as passing the
`d`-dimensional zero vector, and these defaults are exactly the centre and
radius handed to the iterative estimation loop. -/
theorem C8_default_radius_center (X : NpArray) (n d : Nat) (Ps : List ℚ)
    (noise : Nat → Nat → ℚ) (h : X.shape = [n, d]) :
    private_mean X Ps none none noise
      = private_mean X Ps (some (9 * (d : ℚ))) (some (List.replicate d 0)) noise ∧
    private_mean X Ps none none noise
      = multivariateMeanIterative X.rows (List.replicate d 0) (9 * (d : ℚ))
          Ps.length Ps noise := by
  constructor
  · rw [private_mean_2d h, private_mean_2d h]
    rfl
  · rw [private_mean_2d h]
    rfl

theorem C8_witness :
    (⟨[1, 2], [[0, 0]]⟩ : NpArray).shape = [1, 2] ∧
    (private_mean ⟨[1, 2], [[0, 0]]⟩ [1] none none (fun _ _ => 0)
      = private_mean ⟨[1, 2], [[0, 0]]⟩ [1] (some (9 * (2 : ℚ)))
          (some (List.replicate 2 0)) (fun _ _ => 0) ∧
    private_mean ⟨[1, 2], [[0, 0]]⟩ [1] none none (fun _ _ => 0)
      = multivariateMeanIterative [[0, 0]] (List.replicate 2 0) (9 * (2 : ℚ))
          [1].length [1] (fun _ _ => 0)) :=
  ⟨rfl, C8_default_radius_center ⟨[1, 2], [[0, 0]]⟩ 1 2 [1] (fun _ _ => 0) rfl⟩

/-- C4: with subsampling ratio exactly 1 the subsampling branch is skipped —
`give_private_prototypes` estimates every class on its unchanged partition,
and the result does not depend on the random stream at all (no randomness is
consumed); the subsampler runs only when the ratio is strictly below 1. -/
theorem C4_ratio_one_passthrough (train_preds : NpArray)
    (train_targets : List ℤ) (Ps : List ℚ) (seed : Nat) (poisson : Bool)
    (randOf : Nat → RandStream) (noise : Nat → Nat → Nat → ℚ) :
    give_private_prototypes train_preds train_targets Ps seed (some 1) false
        poisson randOf noise
      = assemble train_preds.shape.tail Ps noise
          ((npUnique train_targets).map (classRows train_preds.rows train_targets)) ∧
    ∀ randOf2 : Nat → RandStream,
      give_private_prototypes train_preds train_targets Ps seed (some 1) false
          poisson randOf2 noise
        = give_private_prototypes train_preds train_targets Ps seed (some 1) false
            poisson randOf noise := by
  constructor
  · simp [give_private_prototypes, ltOne, surviving]
  · intro randOf2
    simp [give_private_prototypes, ltOne, surviving]

theorem gpp_main (preds : NpArray) (targets : List ℤ) (Ps : List ℚ)
    (seed : Nat) (s : ℚ) (poisson : Bool) (randOf : Nat → RandStream)
    (noise : Nat → Nat → Nat → ℚ) :
    give_private_prototypes preds targets Ps seed (some s) false poisson
        randOf noise
      = assemble preds.shape.tail Ps noise
          (surviving preds targets s poisson (randOf seed)) := by
  simp [give_private_prototypes, ltOne]

theorem assemble_error_empty (Ps : List ℚ) (noise : Nat → Nat → Nat → ℚ)
    (parts : List (List (List ℚ))) (d : Nat)
    (hex : ∃ j, j < parts.length ∧ parts.getD j [] = []) :
    assemble [d] Ps noise parts = .error .EmptyInput := by
  unfold assemble
  apply mapExcept_error_of_mem
  · intro i _
    by_cases hrow : parts.getD i [] = []
    · left
      rw [private_mean_2d rfl]
      simp only [hrow]
      exact mmi_of_empty _ _ _ _ _
    · right
      exact ⟨_, by rw [private_mean_2d rfl, mmi_of_ne_nil hrow]⟩
  · obtain ⟨j, hj, hempty⟩ := hex
    refine ⟨j, List.mem_range.2 hj, ?_⟩
    rw [private_mean_2d rfl]
    simp only [hempty]
    exact mmi_of_empty _ _ _ _ _

/-- C1: when a label present in `train_targets` has a class partition with
zero surviving points after subsampling (position `j` of the sorted unique
labels), `give_private_prototypes` fails with `EmptyInput` rather than
silently omitting or fabricating that label's row.  The `EmptyInput`
behaviour of the estimation loop lives outside `src/` and is modelled from
the spec (§4.4). -/
theorem C1_empty_class_fails (preds : NpArray) (targets : List ℤ)
    (Ps : List ℚ) (seed : Nat) (s : ℚ) (poisson : Bool)
    (randOf : Nat → RandStream) (noise : Nat → Nat → Nat → ℚ) (n d j : Nat)
    (hshape : preds.shape = [n, d])
    (hj : j < (npUnique targets).length)
    (he : (surviving preds targets s poisson (randOf seed)).getD j [] = []) :
    give_private_prototypes preds targets Ps seed (some s) false poisson
      randOf noise = .error .EmptyInput := by
  rw [gpp_main, show preds.shape.tail = [d] from by rw [hshape]; rfl]
  exact assemble_error_empty Ps noise _ d
    ⟨j, by rw [surviving_length]; exact hj, he⟩

theorem C1_witness :
    0 < (npUnique [(5 : ℤ)]).length ∧
    (surviving ⟨[1, 1], [[0]]⟩ [5] 0 true
      ((fun _ => ⟨fun _ => 0, fun _ xs => xs⟩ : Nat → RandStream) 0)).getD 0 [] = [] ∧
    give_private_prototypes ⟨[1, 1], [[0]]⟩ [5] [1] 0 (some 0) false true
      (fun _ => ⟨fun _ => 0, fun _ xs => xs⟩) (fun _ _ _ => 0)
      = .error .EmptyInput :=
  ⟨by decide, by decide,
   C1_empty_class_fails ⟨[1, 1], [[0]]⟩ [5] [1] 0 0 true
     (fun _ => ⟨fun _ => 0, fun _ xs => xs⟩) (fun _ _ _ => 0) 1 1 0 rfl
     (by decide) (by decide)⟩

/-- C5: whenever `give_private_prototypes` succeeds on an `(n, d)` training
array, the returned matrix has exactly one row per distinct label; the
distinct labels `np.unique` produces are sorted strictly ascending and are
exactly the labels present; row `j` is the `private_mean` estimate of the
`j`-th class's (possibly subsampled) point set, i.e. of the `j`-th smallest
distinct label; and every row has length `d`, so the output is `(k, d)`. -/
theorem C5_rows_follow_sorted_labels (preds : NpArray) (targets : List ℤ)
    (Ps : List ℚ) (seed : Nat) (s : ℚ) (poisson : Bool)
    (randOf : Nat → RandStream) (noise : Nat → Nat → Nat → ℚ) (n d : Nat)
    (P : List (List ℚ))
    (hshape : preds.shape = [n, d])
    (hok : give_private_prototypes preds targets Ps seed (some s) false poisson
      randOf noise = .ok P) :
    P.length = (npUnique targets).length ∧
    (npUnique targets).Sorted (· < ·) ∧
    (∀ a : ℤ, a ∈ npUnique targets ↔ a ∈ targets) ∧
    (∀ j, j < (npUnique targets).length →
      private_mean
          ⟨[((surviving preds targets s poisson (randOf seed)).getD j []).length, d],
            (surviving preds targets s poisson (randOf seed)).getD j []⟩
          Ps none none (noise j)
        = .ok (P.getD j []) ∧ (P.getD j []).length = d) := by
  rw [gpp_main, show preds.shape.tail = [d] from by rw [hshape]; rfl] at hok
  unfold assemble at hok
  have hplen := surviving_length preds targets s poisson (randOf seed)
  refine ⟨?_, npUnique_sorted targets, npUnique_mem targets, ?_⟩
  · rw [mapExcept_ok_length hok]
    simpa using hplen
  · intro j hj
    have hj' : j < (surviving preds targets s poisson (randOf seed)).length := by
      rw [hplen]; exact hj
    have hjr : j < (List.range
        (surviving preds targets s poisson (randOf seed)).length).length := by
      simpa using hj'
    have hf := mapExcept_ok_getD 0 [] hok j (by simpa using hj')
    rw [range_getD hj'] at hf
    refine ⟨hf, ?_⟩
    rw [private_mean_2d rfl] at hf
    have := mmi_ok_length hf
    simpa using this

theorem C5_witness :
    give_private_prototypes ⟨[1, 1], [[0]]⟩ [3] [1] 0 (some 1) false true
      (fun _ => ⟨fun _ => 0, fun _ xs => xs⟩) (fun _ _ _ => 0)
      = .ok [[0]] ∧
    ([[(0 : ℚ)]] : List (List ℚ)).length = (npUnique [(3 : ℤ)]).length ∧
    ((3 : ℤ) ∈ npUnique [(3 : ℤ)] ↔ (3 : ℤ) ∈ [(3 : ℤ)]) ∧
    private_mean
        ⟨[((surviving ⟨[1, 1], [[0]]⟩ [3] 1 true
            ((fun _ => ⟨fun _ => 0, fun _ xs => xs⟩ : Nat → RandStream) 0)).getD 0 []).length, 1],
          (surviving ⟨[1, 1], [[0]]⟩ [3] 1 true
            ((fun _ => ⟨fun _ => 0, fun _ xs => xs⟩ : Nat → RandStream) 0)).getD 0 []⟩
        [1] none none ((fun _ _ _ => 0 : Nat → Nat → Nat → ℚ) 0)
      = .ok ([[(0 : ℚ)]].getD 0 []) ∧
    (([[(0 : ℚ)]] : List (List ℚ)).getD 0 []).length = 1 := by
  have hok : give_private_prototypes ⟨[1, 1], [[0]]⟩ [3] [1] 0 (some 1) false true
      (fun _ => ⟨fun _ => 0, fun _ xs => xs⟩) (fun _ _ _ => 0) = .ok [[0]] := by
    simp [give_private_prototypes, ltOne, surviving, npUnique, classRows, assemble,
      mapExcept, private_mean, multivariateMeanIterative, meanRounds, meanStep,
      colMean, clipPoint, distSq, List.dedup, List.pwFilter, List.insertionSort,
      List.orderedInsert, List.range_succ]
  have h := C5_rows_follow_sorted_labels ⟨[1, 1], [[0]]⟩ [3] [1] 0 1 true
    (fun _ => ⟨fun _ => 0, fun _ xs => xs⟩) (fun _ _ _ => 0) 1 1 [[0]] rfl hok
  exact ⟨hok, h.1, h.2.2.1 3, (h.2.2.2 0 (by decide)).1, (h.2.2.2 0 (by decide)).2⟩

theorem gpp_rand_poisson_congr (preds : NpArray) (targets : List ℤ)
    (Ps : List ℚ) (seed : Nat) (sub : Option ℚ) (ses : Bool)
    (r1 r2 : Nat → RandStream) (noise : Nat → Nat → Nat → ℚ)
    (h : ∀ k, (r2 k).poisson = (r1 k).poisson) :
    give_private_prototypes preds targets Ps seed sub ses true r2 noise
      = give_private_prototypes preds targets Ps seed sub ses true r1 noise := by
  cases ses
  · cases sub with
    | none => rfl
    | some s =>
      rw [gpp_main, gpp_main]
      congr 1
      unfold surviving
      by_cases hlt : s < 1
      · simp only [hlt, if_true]
        exact subsampleGo_poisson_congr (h seed) s 0 _
      · simp [hlt]
  · simp [give_private_prototypes]

/-- C9: the caller-facing entry point always invokes
`give_private_prototypes` with `poisson_sampling` fixed to `True`, and
consequently the result reached through the configuration object never
depends on the shuffle component of the random stream — the fixed-ratio
(shuffle-and-truncate) subsampling mode is unreachable from it. -/
theorem C9_prototypes_always_poisson (cfg : CoinpressPrototyping)
    (m : Mechanism) (preds : NpArray) (targets : List ℤ)
    (os : Option Nat) (randOf : Nat → RandStream)
    (noise : Nat → Nat → Nat → ℚ) (hm : cfg.mechanism = some m) :
    cfg.prototypes preds targets os randOf noise
      = give_private_prototypes preds targets m.Ps
          (match os with | none => cfg.seed | some s => s)
          cfg.p_sampling cfg.sample_each_step true randOf noise ∧
    ∀ randOf2 : Nat → RandStream,
      (∀ k, (randOf2 k).poisson = (randOf k).poisson) →
      cfg.prototypes preds targets os randOf2 noise
        = cfg.prototypes preds targets os randOf noise := by
  constructor
  · simp [CoinpressPrototyping.prototypes, hm]
  · intro r2 h
    simp only [CoinpressPrototyping.prototypes, hm]
    exact gpp_rand_poisson_congr preds targets m.Ps _ cfg.p_sampling
      cfg.sample_each_step randOf r2 noise h

theorem C9_witness :
    ({ mechanism := some ⟨[1]⟩ } : CoinpressPrototyping).prototypes
        ⟨[1, 1], [[0]]⟩ [3] none (fun _ => ⟨fun _ => 0, fun _ xs => xs⟩)
        (fun _ _ _ => 0)
      = give_private_prototypes ⟨[1, 1], [[0]]⟩ [3] [1]
          (match (none : Option Nat) with
            | none => ({ mechanism := some ⟨[1]⟩ } : CoinpressPrototyping).seed
            | some s => s)
          ({ mechanism := some ⟨[1]⟩ } : CoinpressPrototyping).p_sampling
          ({ mechanism := some ⟨[1]⟩ } : CoinpressPrototyping).sample_each_step
          true (fun _ => ⟨fun _ => 0, fun _ xs => xs⟩) (fun _ _ _ => 0) ∧
    ({ mechanism := some ⟨[1]⟩ } : CoinpressPrototyping).prototypes
        ⟨[1, 1], [[0]]⟩ [3] none (fun _ => ⟨fun _ => 0, fun _ _ => []⟩)
        (fun _ _ _ => 0)
      = ({ mechanism := some ⟨[1]⟩ } : CoinpressPrototyping).prototypes
          ⟨[1, 1], [[0]]⟩ [3] none (fun _ => ⟨fun _ => 0, fun _ xs => xs⟩)
          (fun _ _ _ => 0) :=
  ⟨(C9_prototypes_always_poisson { mechanism := some ⟨[1]⟩ } ⟨[1]⟩
      ⟨[1, 1], [[0]]⟩ [3] none (fun _ => ⟨fun _ => 0, fun _ xs => xs⟩)
      (fun _ _ _ => 0) rfl).1,
   (C9_prototypes_always_poisson { mechanism := some ⟨[1]⟩ } ⟨[1]⟩
      ⟨[1, 1], [[0]]⟩ [3] none (fun _ => ⟨fun _ => 0, fun _ xs => xs⟩)
      (fun _ _ _ => 0) rfl).2 (fun _ => ⟨fun _ => 0, fun _ _ => []⟩)
      (fun _ => rfl)⟩
